import Mathlib

/-!
Verification of the filename-to-SFZ generator (sfzGen.py).

This file shallowly embeds the data model and the algorithms of the
source program: the token classifier (`R_note`, `R_dyn`, `R_num`, `R_rr`
regexes, `dynToInt`, `parseNote`), the layer/global configuration merge
(`Global.__init__`, `Layer.__init__`), the key-range and velocity-range
partitioners (`borders`, `velBorder`) and the text emitters (`printNote`,
`printDynamic`).  Output lines are represented by the inductive `Line`;
machine text formatting is abstracted to the constructor arguments.
Python dictionaries are modelled as association lists built exclusively
through the overwrite-on-duplicate insertion `updA`, matching dict
semantics.  Python truthiness tests on optional integers (`if low:`)
are modelled by `optTruthy`, and `None == int` comparisons by `pyEq`.
-/

namespace SfzGen

/-- Digit characters, as tested by the regex class `\d` (ASCII digits). -/
def isDigitCh (c : Char) : Bool := '0' ≤ c && c ≤ '9'

/-- A non-empty all-digit token: the anchored regex `\d+` over the whole
token, used by `R_num.match` (line 38 / 312 of the source). -/
def isDigits (l : List Char) : Bool := !l.isEmpty && l.all isDigitCh

/-- Numeric value of one digit character. -/
def digitVal (c : Char) : ℕ := c.toNat - '0'.toNat

/-- Value of a digit string, as Python `int` on an all-digit token. -/
def digitsVal (l : List Char) : ℕ := l.foldl (fun a c => 10 * a + digitVal c) 0

/-- Python `int` on a `-?\d+` token (group 3 of `R_note`): an optional
leading minus sign followed by one or more digits. -/
def intToken (l : List Char) : Option ℤ :=
  if l.head? = some '-' then
    if isDigits l.tail then some (-(digitsVal l.tail : ℤ)) else none
  else if isDigits l then some (digitsVal l : ℤ) else none

/-- The `noteNames` table of the source (line 34): semitone offsets of
the seven note letters. -/
def noteNames : Char → ℤ
  | 'c' => 0
  | 'd' => 2
  | 'e' => 4
  | 'f' => 5
  | 'g' => 7
  | 'a' => 9
  | 'b' => 11
  | _ => 0

/-- Whether a character is one of the seven note letters (the class
`[abcdefg]` of `R_note`). -/
def isNoteLetter (c : Char) : Bool :=
  c = 'a' || c = 'b' || c = 'c' || c = 'd' || c = 'e' || c = 'f' || c = 'g'

/-- `R_note.match` (line 35, `^([abcdefg])([#b])?(-?\d+)$`) combined with
the key computation of `parseNote` (lines 306-309): on a match, returns
`noteNames letter ± accidental + 12 * octave`.  The octave group
`(-?\d+)` is mandatory in the regex, so a bare letter does not match.
The greedy optional accidental never needs backtracking because `#` and
`b` cannot begin the `-?\d+` octave group. -/
def noteMatch : List Char → Option ℤ
  | [] => none
  | c :: rest =>
    if isNoteLetter c then
      match rest with
      | [] => none
      | r1 :: r2 =>
        if r1 = '#' then (intToken r2).map (fun o => noteNames c + 1 + 12 * o)
        else if r1 = 'b' then (intToken r2).map (fun o => noteNames c - 1 + 12 * o)
        else (intToken (r1 :: r2)).map (fun o => noteNames c + 12 * o)
    else none

/-- The `vl?\d+$` alternative of `R_dyn` (line 37): `v`, an optional `l`,
then digits.  When the second character is `l` the no-`l` reading would
need `l…` to be digits, which is impossible, so the structural match is
equivalent to the regex with backtracking. -/
def velMatch : List Char → Bool
  | 'v' :: 'l' :: r => isDigits r
  | 'v' :: r => isDigits r
  | _ => false

/-- The `l\d+$` alternative of `R_dyn`. -/
def lMatch : List Char → Bool
  | 'l' :: r => isDigits r
  | _ => false

/-- `R_dyn.match` (line 37): `p+$|mp$|mf$|f+$|vl?\d+$|l\d+$`, anchored at
the start by `re.match`. -/
def dynMatch (l : List Char) : Bool :=
  (!l.isEmpty && l.all (· = 'p')) || l = ['m', 'p'] || l = ['m', 'f'] ||
  (!l.isEmpty && l.all (· = 'f')) || velMatch l || lMatch l

/-- `R_rr.match` (line 39, `^rr(\d+)$`): returns the round-robin index. -/
def rrMatch : List Char → Option ℕ
  | 'r' :: 'r' :: r => if isDigits r then some (digitsVal r) else none
  | _ => none

/-- The trailing digit run of a token: what `R_num.search(dyn).group(0)`
returns in `dynToInt` (the `\d+$` pattern searched finds the maximal
run of digits ending the string). -/
def trailingDigits (l : List Char) : List Char :=
  (l.reverse.takeWhile isDigitCh).reverse

/-- `dynToInt` (lines 280-289).  The final fallback in the source calls
`R_num.search(dyn).group(0)`, which raises when the token has no
trailing digits; that impossible-in-context case is modelled by `none`
(every `R_dyn` match that reaches the fallback ends in digits). -/
def dynToInt (l : List Char) : Option ℤ :=
  if l.head? = some 'p' then some (-(l.length : ℤ))
  else if l = ['m', 'p'] then some 0
  else if l = ['m', 'f'] then some 1
  else if l.head? = some 'f' then some ((l.length : ℤ) + 1)
  else if isDigits (trailingDigits l) then some (digitsVal (trailingDigits l) : ℤ)
  else none

/-- One physical sample file: the `Sample` class (lines 41-46).
`vol` is a dB adjustment; Python floats are modelled by rationals. -/
structure Sample where
  name : String
  offset : ℕ
  vol : ℚ
  pan : ℤ
deriving DecidableEq

/-- `Sample.__init__`: offset, volume and pan all start at zero. -/
def Sample.init (name : String) : Sample := ⟨name, 0, 0, 0⟩

/-- Association-list lookup, modelling Python dict indexing. -/
def alookup {α β : Type} [DecidableEq α] (m : List (α × β)) (k : α) : Option β :=
  match m with
  | [] => none
  | (k', v) :: rest => if k' = k then some v else alookup rest k

/-- Association-list insertion that overwrites an existing entry in
place, modelling Python dict assignment (duplicate keys silently
overwrite, insertion order otherwise preserved). -/
def updA {α β : Type} [DecidableEq α] (m : List (α × β)) (k : α) (v : β) :
    List (α × β) :=
  match m with
  | [] => [(k, v)]
  | (k', v') :: rest => if k' = k then (k, v) :: rest else (k', v') :: updA rest k v

/-- Round-robin index → sample record. -/
abbrev RRMap := List (ℕ × Sample)
/-- Key index → round-robin map. -/
abbrev KeyMap := List (ℤ × RRMap)
/-- Dynamic level → key map: one layer's registry
(`layer.dynamics`, a nested `defaultdict`). -/
abbrev DynMap := List (ℤ × KeyMap)

/-- `layer.dynamics[dyn][key][rr] = sample` (lines 320/325/336):
nested dict assignment, missing inner dicts created empty by the
`defaultdict`. -/
def dynInsert (dm : DynMap) (dyn key : ℤ) (rr : ℕ) (s : Sample) : DynMap :=
  let km := (alookup dm dyn).getD []
  let rm := (alookup km key).getD []
  updA dm dyn (updA km key (updA rm rr s))

/-- Triple lookup in a registry. -/
def sampleAt (dm : DynMap) (dyn key : ℤ) (rr : ℕ) : Option Sample :=
  (alookup dm dyn).bind fun km => (alookup km key).bind fun rm => alookup rm rr

/-- The resolved `Global` object (lines 93-125).  Regex/filesystem glue
(`filter`, `split`, `sub`, output naming) is out of the embedded core;
`map` is the lower-cased token remap table. -/
structure GlobalLayer where
  name : String := "Generated Instrument"
  volume : ℚ := 0
  attack : ℚ := 1 / 250
  release : ℚ := 3 / 10
  exponent : ℚ := 3 / 5
  min : Option ℤ := none
  max : Option ℤ := none
  map : List (List Char × List Char) := []
  octaveOffset : ℤ := 0
  transpose : ℤ := 0
  indexOffset : ℤ := 0
  stride : ℤ := 1
  crossfade : Bool := false
  unpitched : Bool := false
  skipAnalysis : Bool := false
  invertDynamics : Bool := false
  knobs : Bool := false
  exact : Bool := false
deriving DecidableEq

/-- The resolved `Layer` object (lines 175-217).  `srcDir`, `filter`,
`split` and `sub` are filesystem/regex glue and are omitted. -/
structure Layer where
  name : String := ""
  attack : ℚ := 0
  release : ℚ := 0
  volume : ℚ := 0
  exponent : ℚ := 3 / 5
  min : Option ℤ := none
  max : Option ℤ := none
  map : List (List Char × List Char) := []
  octaveOffset : ℤ := 0
  transpose : ℤ := 0
  indexOffset : ℤ := 0
  stride : ℤ := 1
  crossfade : Bool := false
  invertDynamics : Bool := false
  unpitched : Bool := false
  isRelease : Bool := false
  alwaysRelease : Bool := false
  onekey : Bool := false
  exact : Bool := false
  knob : Bool := false
  knobVal : ℤ := 127
  skipAnalysis : Bool := false
  dynamics : DynMap := []
deriving DecidableEq

/-- The global section of the YAML config: `some` means the key is
present (`"key" in layer`), `none` that it is absent.  Presence-only
flags are booleans.  Numeric values are modelled as already converted
(`float`/`int`). -/
structure GlobalCfg where
  name : Option String := none
  volume : Option ℚ := none
  attack : Option ℚ := none
  release : Option ℚ := none
  exponent : Option ℚ := none
  min : Option ℤ := none
  max : Option ℤ := none
  map : List (List Char × List Char) := []
  octave : Option ℤ := none
  transpose : Option ℤ := none
  middleC : Option ℤ := none
  stride : Option ℤ := none
  crossfade : Bool := false
  unpitched : Bool := false
  skipAnalysis : Bool := false
  force : Bool := false
  invertDynamics : Bool := false
  knobs : Bool := false
  exact : Bool := false
deriving DecidableEq

/-- A layer section of the YAML config. -/
structure LayerCfg where
  attack : Option ℚ := none
  release : Option ℚ := none
  volume : Option ℚ := none
  exponent : Option ℚ := none
  min : Option ℤ := none
  max : Option ℤ := none
  map : List (List Char × List Char) := []
  octave : Option ℤ := none
  transpose : Option ℤ := none
  middleC : Option ℤ := none
  stride : Option ℤ := none
  crossfade : Bool := false
  unpitched : Bool := false
  skipAnalysis : Bool := false
  force : Bool := false
  invertDynamics : Bool := false
  exact : Bool := false
  isRelease : Bool := false
  alwaysRelease : Bool := false
  onekey : Bool := false
  knob : Bool := false
  knobPercent : Option ℤ := none
deriving DecidableEq

/-- `Global.__init__` (lines 93-125).  `noknobs` is the `-k` CLI flag. -/
def mkGlobal (noknobs : Bool) (c : GlobalCfg) : GlobalLayer where
  name := c.name.getD "Generated Instrument"
  volume := c.volume.getD 0
  attack := c.attack.getD (1 / 250)
  release := c.release.getD (3 / 10)
  exponent := c.exponent.getD (3 / 5)
  min := c.min
  max := c.max
  map := c.map
  octaveOffset := c.octave.getD 0
  transpose := c.transpose.getD 0
  indexOffset := (c.middleC.map (fun m => m - 60)).getD 0
  stride := c.stride.getD 1
  crossfade := c.crossfade
  unpitched := c.unpitched
  skipAnalysis := c.skipAnalysis || c.force
  invertDynamics := c.invertDynamics
  knobs := if noknobs then false else c.knobs
  exact := c.exact

/-- `Layer.__init__` (lines 175-217), with the ambient `globalLayer`
passed explicitly as `g`.  Note lines 177-178: a missing `attack` or
`release` key falls back to `0`, not to the global value, unlike
`exponent`, `min`, `max`, `middleC` and `stride`. -/
def mkLayer (g : GlobalLayer) (noknobs : Bool) (nm : String) (c : LayerCfg) : Layer where
  name := nm
  attack := c.attack.getD 0
  release := c.release.getD 0
  volume := c.volume.getD 0 + g.volume
  exponent := c.exponent.getD g.exponent
  min := match c.min with
    | some v => some v
    | none => g.min
  max := match c.max with
    | some v => some v
    | none => g.max
  map := c.map
  octaveOffset := c.octave.getD 0 + g.octaveOffset
  transpose := c.transpose.getD 0 + g.transpose
  indexOffset := (c.middleC.map (fun m => m - 60)).getD g.indexOffset
  stride := c.stride.getD g.stride
  crossfade := c.crossfade || g.crossfade
  invertDynamics := c.invertDynamics || g.invertDynamics
  unpitched := c.unpitched || g.unpitched
  isRelease := c.isRelease || nm = "release"
  alwaysRelease := c.alwaysRelease
  onekey := c.onekey
  exact := c.exact || g.exact
  knob := if noknobs then false else c.knob
  knobVal := (c.knobPercent.map (fun p => Int.fdiv (p * 127) 100)).getD 127
  skipAnalysis := c.skipAnalysis || c.force
  dynamics := []

/-- The mutable classification state of one `parseNote` run: candidate
key index (sentinel `-255` = not found), dynamic level, round-robin. -/
structure ParseState where
  index : ℤ
  dyn : ℤ
  rr : ℕ
deriving DecidableEq

/-- Initial state of `parseNote` (lines 294-296). -/
def initState : ParseState := ⟨-255, 0, 0⟩

/-- Token preprocessing (lines 298-303): lower-case, then the global
remap table, then the layer remap table. -/
def remapTok (g : GlobalLayer) (L : Layer) (fc : List Char) : List Char :=
  let f := fc.map Char.toLower
  let f := (alookup g.map f).getD f
  (alookup L.map f).getD f

/-- Classification of one token (lines 305-315): note pattern first,
then dynamic, then plain number, then round-robin; unrecognized tokens
leave the state unchanged.  The `dynToInt` fallback default `0` is
unreachable: every `dynMatch` alternative either starts with `p`/`f`,
is `mp`/`mf`, or ends in at least one digit, so `dynToInt` succeeds. -/
def classToken (g : GlobalLayer) (L : Layer) (st : ParseState) (fc : List Char) :
    ParseState :=
  let f := remapTok g L fc
  match noteMatch f with
  | some v => { st with index := v }
  | none =>
    if dynMatch f then { st with dyn := (dynToInt f).getD 0 }
    else if isDigits f then { st with index := (digitsVal f : ℤ) * L.stride - L.indexOffset }
    else match rrMatch f with
      | some n => { st with rr := n }
      | none => st

/-- The token scan loop of `parseNote` (lines 297-315). -/
def parseTokens (g : GlobalLayer) (L : Layer) (ts : List (List Char)) : ParseState :=
  ts.foldl (classToken g L) initState

/-- `parseNote` (lines 292-336), acting on the already split token list
(the `split` regex is glue).  Returns the layer with the registry
updated, or unchanged when the file is rejected. -/
def parseNote (g : GlobalLayer) (L : Layer) (filename : String)
    (ts : List (List Char)) : Layer :=
  let st := parseTokens g L ts
  if st.index = -255 then
    if L.onekey then
      { L with dynamics := dynInsert L.dynamics st.dyn 60 st.rr (Sample.init filename) }
    else if L.unpitched then
      let idx : ℤ := ((alookup L.dynamics st.dyn).getD []).length
      { L with dynamics := dynInsert L.dynamics st.dyn idx st.rr (Sample.init filename) }
    else L
  else
    let index := st.index + L.octaveOffset * 12 + L.transpose
    if index < 0 then L
    else { L with dynamics := dynInsert L.dynamics st.dyn index st.rr (Sample.init filename) }

/-- The per-layer scan loop of `scanLayer` (lines 346-367) restricted to
its accepted files: each file is its raw name plus the token list the
`split` regex produced from the filtered/substituted name (regex
filtering and substitution are glue outside the embedded core). -/
def runScan (g : GlobalLayer) (L : Layer) (files : List (String × List (List Char))) :
    Layer :=
  files.foldl (fun L' f => parseNote g L' f.1 f.2) L

/-- One `analyzeFile` call (lines 384-413) on a sample record,
abstracting the numeric signal processing to its result: the final
onset offset and dB volume written into the record.  Only `offset` and
`vol` are assigned by the source; the pan computation (lines 409-413)
is commented out, so `pan` is never written. -/
def analyzeSample (r : ℕ × ℚ) (s : Sample) : Sample :=
  { s with offset := r.1, vol := r.2 }

/-- The per-sample loop of `analyzeLayers` (lines 415-425) over one
registry.  `res name = none` models a failed decode (the `except`
branch: the record keeps its current fields). -/
def analyzeRegistry (res : String → Option (ℕ × ℚ)) (dm : DynMap) : DynMap :=
  dm.map fun d =>
    (d.1, d.2.map fun k =>
      (k.1, k.2.map fun r =>
        (r.1, match res r.2.name with
          | some v => analyzeSample v r.2
          | none => r.2)))

/-- `analyzeLayers` restricted to one layer (lines 415-417): release
layers and skip-analysis layers are left untouched. -/
def analyzeLayer (res : String → Option (ℕ × ℚ)) (L : Layer) : Layer :=
  if L.isRelease || L.skipAnalysis then L
  else { L with dynamics := analyzeRegistry res L.dynamics }

/-- One output line of the emitter.  Constructor arguments carry the
formatted values; the `sample` path computation (`os.path.relpath`) is
abstracted to the sample name. -/
inductive Line where
  | groupHdr
  | ampegAttack (v : ℚ)
  | triggerRelease
  | triggerReleaseKey
  | gainOncc205
  | pitchKeytrack0
  | lovel (v : ℤ)
  | hivel (v : ℤ)
  | volumeGroup (v : ℚ)
  | xfin (cc : ℕ)
  | regionHdr
  | seqLength (n : ℕ)
  | seqPosition (n : ℕ)
  | sample (name : String)
  | key (i : ℤ)
  | pitchKeycenter (i : ℤ)
  | lokey (v : ℤ)
  | hikey (v : ℤ)
  | offset (n : ℕ)
  | pan (v : ℤ)
  | volume (v : ℚ)
  | blank
deriving DecidableEq

/-- Python truthiness of an optional integer, as in `if low:` (lines
442, 444, 473, 475) and `if layer.min and …` (line 495): `None` and
`0` are falsy, every other integer truthy. -/
def optTruthy : Option ℤ → Bool
  | none => false
  | some v => v ≠ 0

/-- Python `==` between an optional integer and an integer, as in
`low == index` (line 438): `None == i` is `False`. -/
def pyEq : Option ℤ → ℤ → Bool
  | none, _ => false
  | some v, i => v = i

/-- Emit a bound directive only when the bound is truthy (the
`if low: print(…)` idiom). -/
def optDirective (f : ℤ → Line) (o : Option ℤ) : List Line :=
  match o with
  | some v => if v ≠ 0 then [f v] else []
  | none => []

/-- `printNote` (lines 431-453).  The second component records whether
the call raised: line 451 evaluates `('volume=%f' % note.vol) +
layer.volume`, string-plus-float, so any sample with a non-zero volume
raises `TypeError` after the lines before it were already written; no
volume line is ever produced.  Line 449 prints `note.offset` under the
`pan=` label (dead in practice, since pan is always zero). -/
def printNote (L : Layer) (note : Sample) (index : ℤ) (low high : Option ℤ)
    (rr rrLen : ℕ) : List Line × Bool :=
  let l := [Line.regionHdr]
    ++ (if 1 < rrLen then [Line.seqLength rrLen, Line.seqPosition (rr + 1)] else [])
    ++ [Line.sample note.name]
    ++ (if L.exact || (pyEq low index && pyEq high index) then [Line.key index]
        else [Line.pitchKeycenter index]
          ++ optDirective Line.lokey low ++ optDirective Line.hikey high)
    ++ (if 0 < note.offset then [Line.offset note.offset] else [])
    ++ (if note.pan ≠ 0 then [Line.pan (note.offset : ℤ)] else [])
  if note.vol ≠ 0 then (l, true) else (l ++ [Line.blank], false)

/-- Sequential emission with exception propagation: later emitters do
not run once one has raised, and the lines already written remain. -/
def emitSeq {α : Type} (f : α → List Line × Bool) : List α → List Line × Bool
  | [] => ([], false)
  | x :: xs =>
    let r := f x
    if r.2 then (r.1, true)
    else
      let rest := emitSeq f xs
      (r.1 ++ rest.1, rest.2)

/-- Insertion of one keyed entry into a key-sorted list (stable). -/
def insertByKey {α β : Type} [LinearOrder α] (x : α × β) :
    List (α × β) → List (α × β)
  | [] => [x]
  | y :: ys => if x.1 < y.1 then x :: y :: ys else y :: insertByKey x ys

/-- Python `sorted(d.items())` on a dict with distinct keys: sort the
association list by key. -/
def sortByKey {α β : Type} [LinearOrder α] : List (α × β) → List (α × β)
  | [] => []
  | x :: xs => insertByKey x (sortByKey xs)

/-- Midpoint boundaries between adjacent sorted keys (line 486):
`[(keys[i] + keys[i+1]) // 2 for i in range(len(keys)-1)]`.  Python
`//` is floor division; the divisor `2` is positive, so it coincides
with the Euclidean division `/` of `ℤ`. -/
def borders (ks : List ℤ) : List ℤ :=
  (ks.zip ks.tail).map fun p => (p.1 + p.2) / 2

/-- The low key bound of the region at position `i` (line 492):
`borders[i-1] + 1 if i != 0 else None`. -/
def keyLow (bs : List ℤ) (i : ℕ) : Option ℤ :=
  if i = 0 then none else (bs[i - 1]?).map (· + 1)

/-- The high key bound of the region at position `i` of `n` (line 493):
`borders[i] if i != len(keys)-1 else None`. -/
def keyHigh (bs : List ℤ) (n i : ℕ) : Option ℤ :=
  if i = n - 1 then none else bs[i]?

/-- The min/max emission filter (lines 495-498): `if layer.min and
layer.min > index: continue`, and symmetrically for `max`.  Python
truthiness makes a bound of `0` behave as unset. -/
def skipKey (L : Layer) (index : ℤ) : Bool :=
  (optTruthy L.min && (L.min.getD 0) > index) ||
  (optTruthy L.max && (L.max.getD 0) < index)

/-- The body of the region loop of `printDynamic` for one key (lines
490-499): round-robins sorted ascending, the min/max filter applied
per round-robin (its condition does not depend on the round-robin). -/
def regionChunk (L : Layer) (bs : List ℤ) (n : ℕ) (i : ℕ) (index : ℤ)
    (robins : RRMap) : List Line × Bool :=
  let rrln := robins.length
  let lo := keyLow bs i
  let hi := keyHigh bs n i
  emitSeq (fun q =>
      if skipKey L index then ([], false)
      else printNote L q.2.2 index lo hi q.1 rrln)
    (sortByKey robins).enum

/-- The group header of `printDynamic` (lines 458-488).  `gknobs` is
`globalLayer.knobs and not args.noknobs`. -/
def dynHeader (gknobs : Bool) (L : Layer) (low high : Option ℤ) (cc : ℕ) :
    List Line :=
  [Line.groupHdr]
  ++ (if 0 < L.attack then [Line.ampegAttack L.attack] else [])
  ++ (if L.isRelease then
        (if L.alwaysRelease then [Line.triggerReleaseKey] else [Line.triggerRelease])
        ++ (if gknobs then [Line.gainOncc205] else [])
      else [])
  ++ (if L.unpitched then [Line.pitchKeytrack0] else [])
  ++ optDirective Line.lovel low
  ++ optDirective Line.hivel high
  ++ (if L.volume ≠ 0 then [Line.volumeGroup L.volume] else [])
  ++ (if L.knob then [Line.xfin cc] else [])
  ++ [Line.blank]

/-- `printDynamic` (lines 457-499): group header, then the region loop
over keys sorted ascending, with boundary positions computed from all
keys before the min/max filter is applied. -/
def printDynamic (gknobs : Bool) (L : Layer) (notes : KeyMap)
    (low high : Option ℤ) (cc : ℕ) : List Line × Bool :=
  let sr := sortByKey notes
  let ks := sr.map Prod.fst
  let bs := borders ks
  let r := emitSeq (fun p => regionChunk L bs ks.length p.1 p.2.1 p.2.2) sr.enum
  (dynHeader gknobs L low high cc ++ r.1, r.2)

/-- `velBorder` (lines 503-504): `int((i/ln) ** layer.exponent * 128)`,
in exact real arithmetic.  The base `i/ln` is non-negative, so the
power is Python's real-valued `**` (`Real.rpow`) and the result is
non-negative, making Python's truncating `int()` the floor. -/
noncomputable def velBorder (e : ℚ) (i ln : ℕ) : ℤ :=
  ⌊((i : ℝ) / (ln : ℝ)) ^ (e : ℝ) * 128⌋

/-- `printLayer` (lines 506-512): dynamics sorted ascending (reversed
when `invertDynamics`), each given its velocity range. -/
noncomputable def printLayer (gknobs : Bool) (L : Layer) (li : ℕ) :
    List Line × Bool :=
  let dynLen := L.dynamics.length
  let s := sortByKey L.dynamics
  let s := if L.invertDynamics then s.reverse else s
  emitSeq (fun p =>
      let low := if p.1 = 0 then none else some (velBorder L.exponent p.1 dynLen)
      let high := if p.1 = dynLen - 1 then none
        else some (velBorder L.exponent (p.1 + 1) dynLen - 1)
      printDynamic gknobs L p.2.2 low high (301 + li))
    s.enum

/-! ## Shared lemmas -/

/-- Looking up the key just written returns the written value. -/
theorem alookup_updA_self {α β : Type} [DecidableEq α] (m : List (α × β)) (k : α)
    (v : β) : alookup (updA m k v) k = some v := by
  induction m with
  | nil => simp [updA, alookup]
  | cons hd tl ih =>
    by_cases h : hd.1 = k
    · simp [updA, h, alookup]
    · simp [updA, h, alookup, ih]

/-- A lookup that succeeds returns a value satisfying any predicate all
values of the list satisfy. -/
theorem alookup_all {α β : Type} [DecidableEq α] (p : β → Bool)
    (m : List (α × β)) (h : m.all (fun x => p x.2) = true) (k : α) (v : β)
    (hk : alookup m k = some v) : p v = true := by
  induction m with
  | nil => simp [alookup] at hk
  | cons hd tl ih =>
    simp only [List.all_cons, Bool.and_eq_true] at h
    by_cases hh : hd.1 = k
    · simp [alookup, hh] at hk
      exact hk ▸ h.1
    · simp [alookup, hh] at hk
      exact ih h.2 hk

/-- `updA` preserves an all-values predicate when the new value
satisfies it. -/
theorem all_updA {α β : Type} [DecidableEq α] (p : β → Bool) (m : List (α × β))
    (k : α) (v : β) (h : m.all (fun x => p x.2) = true) (hv : p v = true) :
    (updA m k v).all (fun x => p x.2) = true := by
  induction m with
  | nil => simp [updA, hv]
  | cons hd tl ih =>
    simp only [List.all_cons, Bool.and_eq_true] at h
    by_cases hh : hd.1 = k
    · simp [updA, hh, hv, h.2]
    · simp only [updA, hh, if_false, List.all_cons, Bool.and_eq_true]
      exact ⟨h.1, ih h.2⟩

/-- Membership after a sorted insertion. -/
theorem mem_insertByKey {α β : Type} [LinearOrder α] (x y : α × β)
    (l : List (α × β)) : y ∈ insertByKey x l ↔ y = x ∨ y ∈ l := by
  induction l with
  | nil => simp [insertByKey]
  | cons hd tl ih =>
    by_cases h : x.1 < hd.1
    · simp [insertByKey, h]
    · simp [insertByKey, h, ih]
      tauto

/-- `sortByKey` does not change the set of entries. -/
theorem mem_sortByKey {α β : Type} [LinearOrder α] (y : α × β)
    (l : List (α × β)) : y ∈ sortByKey l ↔ y ∈ l := by
  induction l with
  | nil => simp [sortByKey]
  | cons hd tl ih => simp [sortByKey, mem_insertByKey, ih]

/-- An entry of the enumerated list is an entry of the list. -/
theorem mem_of_mem_enumFrom {α : Type} (x : ℕ × α) :
    ∀ (n : ℕ) (l : List α), x ∈ List.enumFrom n l → x.2 ∈ l := by
  intro n l
  induction l generalizing n with
  | nil => simp [List.enumFrom]
  | cons hd tl ih =>
    intro hx
    simp only [List.enumFrom, List.mem_cons] at hx
    rcases hx with h | h
    · simp [h]
    · exact List.mem_cons_of_mem _ (ih _ h)

/-- `emitSeq` over emitters that never raise is the concatenation of
their outputs, and never raises. -/
theorem emitSeq_eq_join {α : Type} (f : α → List Line × Bool) (l : List α)
    (h : ∀ x ∈ l, (f x).2 = false) :
    emitSeq f l = ((l.map fun x => (f x).1).flatten, false) := by
  induction l with
  | nil => simp [emitSeq]
  | cons hd tl ih =>
    have h1 : (f hd).2 = false := h hd (List.mem_cons_self hd tl)
    have h2 := ih fun x hx => h x (List.mem_cons_of_mem _ hx)
    simp [emitSeq, h1, h2]

/-! ## Claim C8: dynToInt on dynamic runs -/

/-- Claim C8: for every `n ≥ 1`, `dynToInt` maps a run of `n` letters
`p` to `-n`, a run of `n` letters `f` to `n + 1`, `mp` to `0` and `mf`
to `1`. -/
theorem claim8_ok (n : ℕ) (h : 1 ≤ n) :
    dynToInt (List.replicate n 'p') = some (-(n : ℤ)) ∧
    dynToInt (List.replicate n 'f') = some ((n : ℤ) + 1) ∧
    dynToInt "mp".toList = some 0 ∧
    dynToInt "mf".toList = some 1 := by
  obtain ⟨m, rfl⟩ : ∃ m, n = m + 1 := ⟨n - 1, by omega⟩
  refine ⟨?_, ?_, by decide, by decide⟩
  · simp [dynToInt, List.replicate_succ]
  · simp [dynToInt, List.replicate_succ]

/-- Witness for C8 at `n = 3`. -/
theorem claim8_ok_w :
    1 ≤ 3 ∧
    (dynToInt (List.replicate 3 'p') = some (-(3 : ℤ)) ∧
     dynToInt (List.replicate 3 'f') = some ((3 : ℤ) + 1) ∧
     dynToInt "mp".toList = some 0 ∧
     dynToInt "mf".toList = some 1) :=
  ⟨by decide, claim8_ok 3 (by decide)⟩

/-! ## Claim C5: layer attack/release inheritance -/

/-- Counterexample to claim C5: a layer configuration omitting `attack`
and `release` receives `0` for both, while the global layer (also with
both omitted) holds the defaults `0.004` and `0.3`; the layer values do
not equal the global ones. -/
theorem claim5_cex :
    (mkLayer (mkGlobal false {}) false "sustain" {}).attack = 0 ∧
    (mkGlobal false {}).attack = 1 / 250 ∧
    (mkLayer (mkGlobal false {}) false "sustain" {}).attack ≠ (mkGlobal false {}).attack ∧
    (mkLayer (mkGlobal false {}) false "sustain" {}).release = 0 ∧
    (mkGlobal false {}).release = 3 / 10 ∧
    (mkLayer (mkGlobal false {}) false "sustain" {}).release ≠ (mkGlobal false {}).release := by
  refine ⟨rfl, rfl, ?_, rfl, rfl, ?_⟩ <;> norm_num [mkLayer, mkGlobal]

/-- Claim C5 (amended): a layer configuration that omits the `attack`
(resp. `release`) key yields a layer whose attack (resp. release) is
`0`, not the Global value; the global attack/release reach the output
only through the `<global>` block. -/
theorem claim5_amended (g : GlobalLayer) (nok : Bool) (nm : String) (c : LayerCfg)
    (ha : c.attack = none) (hr : c.release = none) :
    (mkLayer g nok nm c).attack = 0 ∧ (mkLayer g nok nm c).release = 0 := by
  simp [mkLayer, ha, hr]

/-- Witness for the amended C5 on the empty layer configuration. -/
theorem claim5_amended_w :
    ({} : LayerCfg).attack = none ∧ ({} : LayerCfg).release = none ∧
    ((mkLayer (mkGlobal false {}) false "sustain" {}).attack = 0 ∧
     (mkLayer (mkGlobal false {}) false "sustain" {}).release = 0) :=
  ⟨rfl, rfl, claim5_amended (mkGlobal false {}) false "sustain" {} rfl rfl⟩

/-! ## Claim C1: the region volume directive -/

/-- Claim C1 (code bug): emitting a region for a sample whose volume
adjustment is non-zero raises (line 451 evaluates
`('volume=%f' % note.vol) + layer.volume`, adding a float to a string)
after the earlier region lines were already written; no volume
directive is ever printed.  The claim — a volume directive of value
`note.vol + layer.volume` and error-free emission — fails on every
sample with non-zero volume. -/
theorem claim1_code_bug :
    printNote ({} : Layer) ⟨"a3.wav", 0, -3, 0⟩ 57 none none 0 1
      = ([Line.regionHdr, Line.sample "a3.wav", Line.pitchKeycenter 57], true) ∧
    ∀ w, Line.volume w ∉ (printNote ({} : Layer) ⟨"a3.wav", 0, -3, 0⟩ 57 none none 0 1).1 := by
  have h : printNote ({} : Layer) ⟨"a3.wav", 0, -3, 0⟩ 57 none none 0 1
      = ([Line.regionHdr, Line.sample "a3.wav", Line.pitchKeycenter 57], true) := by decide
  refine ⟨h, fun w hw => ?_⟩
  rw [h] at hw
  simp at hw

/-! ## Claim C3: the note token pattern -/

/-- Counterexample to claim C3: the bare note letters `c` and `c#`
(no octave digits) are not classified as notes — `R_note` requires the
octave group — and a filename containing only the token `c` is
rejected, adding nothing to the registry. -/
theorem claim3_cex :
    noteMatch ['c'] = none ∧ noteMatch ['c', '#'] = none ∧
    dynMatch ['c'] = false ∧ isDigits ['c'] = false ∧ rrMatch ['c'] = none ∧
    (parseNote ({} : GlobalLayer) ({} : Layer) "c.wav" [['c']]).dynamics = [] := by
  decide

/-- A digit character is not `#`, `b` or `-`. -/
theorem isDigitCh_ne (c : Char) (h : isDigitCh c = true) :
    c ≠ '#' ∧ c ≠ 'b' ∧ c ≠ '-' := by
  refine ⟨?_, ?_, ?_⟩ <;> rintro rfl <;> revert h <;> decide

/-- Claim C3 (amended): a token of one note letter, an optional `#` or
`b`, and a **mandatory** signed integer octave is classified as a note
with key `noteNames letter ± 1 + 12 * octave`; a bare letter with no
octave digits does not match the note pattern. -/
theorem claim3_amended (c : Char) (hc : isNoteLetter c = true) (ds : List Char)
    (hd : isDigits ds = true) :
    noteMatch (c :: ds) = some (noteNames c + 12 * (digitsVal ds : ℤ)) ∧
    noteMatch (c :: '#' :: ds) = some (noteNames c + 1 + 12 * (digitsVal ds : ℤ)) ∧
    noteMatch (c :: 'b' :: ds) = some (noteNames c - 1 + 12 * (digitsVal ds : ℤ)) ∧
    noteMatch (c :: '-' :: ds) = some (noteNames c + 12 * (-(digitsVal ds : ℤ))) ∧
    noteMatch (c :: '#' :: '-' :: ds) = some (noteNames c + 1 + 12 * (-(digitsVal ds : ℤ))) ∧
    noteMatch (c :: 'b' :: '-' :: ds) = some (noteNames c - 1 + 12 * (-(digitsVal ds : ℤ))) ∧
    noteMatch [c] = none ∧ noteMatch [c, '#'] = none ∧ noteMatch [c, 'b'] = none := by
  obtain ⟨d, ds', rfl⟩ : ∃ d ds', ds = d :: ds' := by
    cases ds with
    | nil => simp [isDigits] at hd
    | cons d ds' => exact ⟨d, ds', rfl⟩
  have hd2 : isDigitCh d = true ∧ ∀ x ∈ ds', isDigitCh x = true := by
    simpa [isDigits] using hd
  obtain ⟨h1, h2, h3⟩ := isDigitCh_ne d hd2.1
  refine ⟨?_, ?_, ?_, ?_, ?_, ?_, ?_, ?_, ?_⟩ <;>
    simp [noteMatch, hc, h1, h2, h3, intToken, hd, isDigits] <;> exact hd2

/-- Witness for the amended C3 on the letter `c` and octave digits `3`. -/
theorem claim3_amended_w :
    isNoteLetter 'c' = true ∧ isDigits ['3'] = true ∧
    (noteMatch ['c', '3'] = some 36 ∧
     noteMatch ['c', '#', '3'] = some 37 ∧
     noteMatch ['c', 'b', '3'] = some 35 ∧
     noteMatch ['c', '-', '3'] = some (-36) ∧
     noteMatch ['c', '#', '-', '3'] = some (-35) ∧
     noteMatch ['c', 'b', '-', '3'] = some (-37) ∧
     noteMatch ['c'] = none ∧ noteMatch ['c', '#'] = none ∧ noteMatch ['c', 'b'] = none) :=
  ⟨rfl, rfl, claim3_amended 'c' rfl ['3'] rfl⟩

/-! ## Claim C2: note tokens and the stored key index -/

/-- Counterexample to claim C2: the filename tokens `c3`, `5` contain
the valid note token `c3` of key index `36`, but the later plain-number
token `5` overwrites the candidate key, so the stored key index is `5`,
not `36` — the stored key is not independent of the presence of other
tokens. -/
theorem claim2_cex :
    noteMatch (remapTok ({} : GlobalLayer) ({} : Layer) "c3".toList) = some 36 ∧
    (parseNote ({} : GlobalLayer) ({} : Layer) "x.wav" ["c3".toList, "5".toList]).dynamics
      = [(0, [(5, [(0, Sample.init "x.wav")])])] ∧
    sampleAt (parseNote ({} : GlobalLayer) ({} : Layer) "x.wav"
        ["c3".toList, "5".toList]).dynamics 0 36 0 = none := by
  decide

/-- A token whose remapped form matches the note pattern sets the
candidate key index to the match value, whatever the current state. -/
theorem classToken_note (g : GlobalLayer) (L : Layer) (st : ParseState)
    (fc : List Char) (v : ℤ) (h : noteMatch (remapTok g L fc) = some v) :
    classToken g L st fc = { st with index := v } := by
  simp [classToken, h]

/-- A token whose remapped form matches neither the note pattern nor
the plain-number pattern leaves the candidate key index unchanged. -/
theorem classToken_keeps_index (g : GlobalLayer) (L : Layer) (st : ParseState)
    (fc : List Char) (h1 : noteMatch (remapTok g L fc) = none)
    (h2 : isDigits (remapTok g L fc) = false) :
    (classToken g L st fc).index = st.index := by
  rcases hrr : rrMatch (remapTok g L fc) with _ | m <;>
    simp [classToken, h1, h2, hrr] <;> split <;> rfl

/-- Tokens free of note and plain-number matches (after remapping). -/
def postClean (g : GlobalLayer) (L : Layer) (ts : List (List Char)) : Bool :=
  ts.all fun t => noteMatch (remapTok g L t) = none && isDigits (remapTok g L t) = false

/-- A run of index-free tokens never changes the candidate key index. -/
theorem foldl_keeps_index (g : GlobalLayer) (L : Layer) (post : List (List Char))
    (hpost : postClean g L post = true) :
    ∀ st : ParseState, (post.foldl (classToken g L) st).index = st.index := by
  induction post with
  | nil => intro st; rfl
  | cons hd tl ih =>
    simp only [postClean, List.all_cons, Bool.and_eq_true, decide_eq_true_eq] at hpost
    intro st
    simp only [List.foldl_cons]
    rw [ih (by simp only [postClean]; exact hpost.2) _]
    exact classToken_keeps_index g L st hd hpost.1.1 hpost.1.2

/-- Inserting a triple makes it immediately retrievable. -/
theorem sampleAt_dynInsert (dm : DynMap) (d k : ℤ) (r : ℕ) (s : Sample) :
    sampleAt (dynInsert dm d k r s) d k r = some s := by
  simp [sampleAt, dynInsert, alookup_updA_self]

/-- Claim C2 (amended): a note token's value is `noteNames letter ± 1 +
12 * octave`, and when no later token of the same filename matches the
note or plain-number pattern, this value is the stored (pre-offset) key
index — independent of all earlier tokens and of dynamic or round-robin
tokens anywhere; the registry then holds the sample at that key plus
the octave/transpose offsets. -/
theorem claim2_amended (g : GlobalLayer) (L : Layer) (fn : String)
    (pre post : List (List Char)) (tok : List Char) (v : ℤ)
    (hnote : noteMatch (remapTok g L tok) = some v)
    (hpost : postClean g L post = true)
    (hv : v ≠ -255)
    (hpos : 0 ≤ v + L.octaveOffset * 12 + L.transpose) :
    (parseTokens g L (pre ++ tok :: post)).index = v ∧
    sampleAt (parseNote g L fn (pre ++ tok :: post)).dynamics
      (parseTokens g L (pre ++ tok :: post)).dyn
      (v + L.octaveOffset * 12 + L.transpose)
      (parseTokens g L (pre ++ tok :: post)).rr = some (Sample.init fn) := by
  have hidx : (parseTokens g L (pre ++ tok :: post)).index = v := by
    unfold parseTokens
    rw [List.foldl_append]
    simp only [List.foldl_cons]
    rw [classToken_note g L _ tok v hnote]
    rw [foldl_keeps_index g L post hpost _]
  refine ⟨hidx, ?_⟩
  simp only [parseNote]
  rw [hidx, if_neg hv, if_neg (by omega)]
  simp [sampleAt_dynInsert]

/-- Witness for the amended C2: tokens `c3`, `mf`, `rr2` store the
sample at dynamic `1`, key `36`, round-robin `2`. -/
theorem claim2_amended_w :
    noteMatch (remapTok ({} : GlobalLayer) ({} : Layer) "c3".toList) = some 36 ∧
    postClean ({} : GlobalLayer) ({} : Layer) ["mf".toList, "rr2".toList] = true ∧
    (36 : ℤ) ≠ -255 ∧
    (0 : ℤ) ≤ 36 + ({} : Layer).octaveOffset * 12 + ({} : Layer).transpose ∧
    ((parseTokens ({} : GlobalLayer) ({} : Layer)
        ["c3".toList, "mf".toList, "rr2".toList]).index = 36 ∧
     sampleAt (parseNote ({} : GlobalLayer) ({} : Layer) "c3_mf_rr2.wav"
        ["c3".toList, "mf".toList, "rr2".toList]).dynamics 1 36 2
       = some (Sample.init "c3_mf_rr2.wav")) :=
  ⟨by decide, by decide, by decide, by decide,
   claim2_amended {} {} "c3_mf_rr2.wav" [] ["mf".toList, "rr2".toList] "c3".toList 36
     (by decide) (by decide) (by decide) (by decide)⟩

/-! ## Claim C10: zero bounds and truthiness -/

/-- Counterexample to claim C10: with exact-mode off, a key-range low
bound of `0` is **not** always emitted exactly as if it were unset —
at key center `0` with high bound `0`, the bound `0` satisfies
`low == index and high == index` (while `None` does not), collapsing
the region to a single `key=0` directive where the unset bound yields
`pitch_keycenter=0`; the two outputs differ. -/
theorem claim10_cex :
    printNote ({} : Layer) ⟨"x", 0, 0, 0⟩ 0 (some 0) (some 0) 0 1
      ≠ printNote ({} : Layer) ⟨"x", 0, 0, 0⟩ 0 none (some 0) 0 1 ∧
    (printNote ({} : Layer) ⟨"x", 0, 0, 0⟩ 0 (some 0) (some 0) 0 1).1
      = [Line.regionHdr, Line.sample "x", Line.key 0, Line.blank] ∧
    (printNote ({} : Layer) ⟨"x", 0, 0, 0⟩ 0 none (some 0) 0 1).1
      = [Line.regionHdr, Line.sample "x", Line.pitchKeycenter 0, Line.blank] := by
  decide

/-- Claim C10 (amended): a computed low bound equal to `0` is treated
by the truthiness tests exactly like an unset bound for the group-level
`lovel` directive (the whole group output is identical), and the
region-level `lokey` directive is never emitted at bound `0`; the whole
region output is also identical to the unset case except in the corner
where exact-mode is off, the key center is `0` and the high bound is
`some 0`, where the single-key collapse fires. -/
theorem claim10_amended (gk : Bool) (L : Layer) (notes : KeyMap) (hv : Option ℤ)
    (cc : ℕ) (s : Sample) (idx w : ℤ) (j n : ℕ)
    (h : L.exact = true ∨ idx ≠ 0 ∨ hv ≠ some 0) :
    printDynamic gk L notes (some 0) hv cc = printDynamic gk L notes none hv cc ∧
    Line.lokey w ∉ (printNote L s idx (some 0) hv j n).1 ∧
    printNote L s idx (some 0) hv j n = printNote L s idx none hv j n := by
  refine ⟨?_, ?_, ?_⟩
  · simp [printDynamic, dynHeader, optDirective]
  · rcases hv with _ | v <;>
      simp only [printNote, optDirective] <;>
      split_ifs <;>
      simp_all
  · have hcond : (L.exact || (pyEq (some 0) idx && pyEq hv idx))
        = (L.exact || (pyEq none idx && pyEq hv idx)) := by
      rcases h with h | h | h
      · rw [h]; simp
      · have h0 : pyEq (some 0) idx = false := by
          simp only [pyEq, decide_eq_false_iff_not]
          exact fun hh => h hh.symm
        rw [h0]; simp [pyEq]
      · by_cases hidx : idx = 0
        · subst hidx
          have h0 : pyEq hv 0 = false := by
            cases hv with
            | none => rfl
            | some v =>
              simp only [pyEq, decide_eq_false_iff_not]
              exact fun hh => h (by rw [hh])
          rw [h0]; simp
        · have h0 : pyEq (some 0) idx = false := by
            simp only [pyEq, decide_eq_false_iff_not]
            exact fun hh => hidx hh.symm
          rw [h0]; simp [pyEq]
    have hod : optDirective Line.lokey (some 0) = optDirective Line.lokey none := by
      simp [optDirective]
    simp only [printNote, hcond, hod]

/-- Witness for the amended C10 at key center `3`, high bound `5`. -/
theorem claim10_amended_w :
    (({} : Layer).exact = true ∨ (3 : ℤ) ≠ 0 ∨ (some 5 : Option ℤ) ≠ some 0) ∧
    (printDynamic false ({} : Layer) [] (some 0) (some 5) 301
       = printDynamic false ({} : Layer) [] none (some 5) 301 ∧
     Line.lokey 7 ∉ (printNote ({} : Layer) (Sample.init "x") 3 (some 0) (some 5) 0 1).1 ∧
     printNote ({} : Layer) (Sample.init "x") 3 (some 0) (some 5) 0 1
       = printNote ({} : Layer) (Sample.init "x") 3 none (some 5) 0 1) :=
  ⟨by decide,
   claim10_amended false {} [] (some 5) 301 (Sample.init "x") 3 7 0 1 (by decide)⟩

/-! ## Claim C4: min/max bounds and emission-time exclusion -/

/-- Counterexample to claim C4: a layer with `max` set to `0` does not
exclude key `1`, which lies outside the bound — the truthiness test
`if layer.max and …` treats a bound of `0` as unset, and a region for
key `1` is emitted anyway. -/
theorem claim4_cex :
    ({ max := some 0 } : Layer).max = some 0 ∧ ¬((1 : ℤ) ≤ 0) ∧
    (printDynamic false ({ max := some 0 } : Layer) [(1, [(0, Sample.init "x")])]
        none none 301).1
      = [Line.groupHdr, Line.blank,
         Line.regionHdr, Line.sample "x", Line.pitchKeycenter 1, Line.blank] := by
  decide

/-- The layer with its min/max bounds removed (all else unchanged). -/
def clearBounds (L : Layer) : Layer := { L with min := none, max := none }

/-- All samples of a key map carry volume adjustment `0` (the state of
a registry before analysis, and the premise under which emission is
exception-free, cf. C1). -/
def volsZero (notes : KeyMap) : Bool :=
  notes.all fun kv => kv.2.all fun rv => rv.2.vol == 0

/-- The sorted keys of a key map, as read by `printDynamic`. -/
def keyList (notes : KeyMap) : List ℤ := (sortByKey notes).map Prod.fst

/-- The region lines of one key of a key map, with boundary positions
computed from **all** keys of the map. -/
def chunkOf (L : Layer) (notes : KeyMap) (p : ℕ × (ℤ × RRMap)) : List Line :=
  (regionChunk L (borders (keyList notes)) (keyList notes).length p.1 p.2.1 p.2.2).1

/-- `printNote` never raises on a volume-`0` sample. -/
theorem printNote_noerr (L : Layer) (s : Sample) (idx : ℤ) (lo hi : Option ℤ)
    (j n : ℕ) (h : s.vol = 0) : (printNote L s idx lo hi j n).2 = false := by
  simp [printNote, h]

/-- `printNote` reads no layer field except `exact` (and, on the raising
path, none at all), so clearing min/max does not change it. -/
theorem printNote_clearBounds (L : Layer) (s : Sample) (idx : ℤ)
    (lo hi : Option ℤ) (j n : ℕ) :
    printNote (clearBounds L) s idx lo hi j n = printNote L s idx lo hi j n := by
  simp [printNote, clearBounds]

/-- Clearing the bounds disables the emission filter. -/
theorem skipKey_clearBounds (L : Layer) (k : ℤ) :
    skipKey (clearBounds L) k = false := by
  simp [skipKey, clearBounds, optTruthy]

/-- A filtered key contributes no lines and no exception. -/
theorem regionChunk_skip (L : Layer) (bs : List ℤ) (n i : ℕ) (index : ℤ)
    (robins : RRMap) (h : skipKey L index = true) :
    regionChunk L bs n i index robins = ([], false) := by
  simp only [regionChunk, h]
  induction (sortByKey robins).enum with
  | nil => rfl
  | cons hd tl ih => simpa [emitSeq] using ih

/-- An unfiltered key contributes the same lines whether or not the
layer carries bounds. -/
theorem regionChunk_clearBounds (L : Layer) (bs : List ℤ) (n i : ℕ) (index : ℤ)
    (robins : RRMap) (h : skipKey L index = false) :
    regionChunk (clearBounds L) bs n i index robins
      = regionChunk L bs n i index robins := by
  simp [regionChunk, h, skipKey_clearBounds, printNote_clearBounds]

/-- All round-robins of a volume-`0` key map hold volume-`0` samples. -/
theorem volsZero_mem (notes : KeyMap) (h : volsZero notes = true) (kv : ℤ × RRMap)
    (hkv : kv ∈ notes) (rv : ℕ × Sample) (hrv : rv ∈ kv.2) : rv.2.vol = 0 := by
  simp only [volsZero, List.all_eq_true] at h
  have := (h kv hkv) rv hrv
  exact eq_of_beq this

/-- A volume-`0` key contributes no exception, whatever the filter. -/
theorem regionChunk_noerr (L : Layer) (bs : List ℤ) (n i : ℕ) (index : ℤ)
    (robins : RRMap) (h : ∀ rv ∈ robins, rv.2.vol = 0) :
    (regionChunk L bs n i index robins).2 = false := by
  simp only [regionChunk]
  rw [emitSeq_eq_join]
  intro q hq
  by_cases hs : skipKey L index = true
  · simp [hs]
  · simp only [Bool.not_eq_true] at hs
    simp only [hs, Bool.false_eq_true, if_false]
    refine printNote_noerr _ _ _ _ _ _ _ ?_
    exact h q.2 ((mem_sortByKey q.2 robins).mp (mem_of_mem_enumFrom q 0 _ hq))

/-- Claim C4 (amended): for every layer, emission with min/max bounds
equals the group header followed by the region chunks of exactly the
keys that pass the truthiness filter (a bound of `0` acting as unset),
where every chunk — including its lokey/hikey bounds — is computed from
all keys and is literally the chunk of the bounds-free emission; the
bounds-free emission emits every chunk.  Exclusion is therefore
emission-time only and does not move the neighbours' key ranges. -/
theorem claim4_amended (gk : Bool) (L : Layer) (notes : KeyMap) (lv hv : Option ℤ)
    (cc : ℕ) (hvol : volsZero notes = true) :
    (printDynamic gk L notes lv hv cc).1
      = dynHeader gk L lv hv cc
        ++ ((sortByKey notes).enum.map fun p =>
              if skipKey L p.2.1 then [] else chunkOf (clearBounds L) notes p).flatten ∧
    (printDynamic gk (clearBounds L) notes lv hv cc).1
      = dynHeader gk (clearBounds L) lv hv cc
        ++ ((sortByKey notes).enum.map fun p =>
              chunkOf (clearBounds L) notes p).flatten := by
  have hrob : ∀ p ∈ (sortByKey notes).enum, ∀ rv ∈ p.2.2, rv.2.vol = 0 := by
    intro p hp rv hrv
    exact volsZero_mem notes hvol p.2
      ((mem_sortByKey p.2 notes).mp (mem_of_mem_enumFrom p 0 _ hp)) rv hrv
  constructor
  · simp only [printDynamic]
    rw [emitSeq_eq_join _ _ (fun p hp => regionChunk_noerr _ _ _ _ _ _ (hrob p hp))]
    dsimp only
    congr 1
    refine congrArg List.flatten ?_
    apply List.map_congr_left
    intro p hp
    by_cases hs : skipKey L p.2.1 = true
    · simp [regionChunk_skip _ _ _ _ _ _ hs, hs]
    · simp only [Bool.not_eq_true] at hs
      simp only [hs, Bool.false_eq_true, if_false, chunkOf, keyList]
      rw [regionChunk_clearBounds _ _ _ _ _ _ hs]
  · simp only [printDynamic]
    rw [emitSeq_eq_join _ _ (fun p hp => regionChunk_noerr _ _ _ _ _ _ (hrob p hp))]
    dsimp only [chunkOf, keyList]

/-- Witness for the amended C4: bounds `40`–`80` with registry keys
`30`, `50`, `90`.  The outer keys are excluded from the output, yet key
`50` keeps the same `lokey=41`/`hikey=70` bounds as in the bounds-free
emission. -/
theorem claim4_amended_w :
    volsZero [(30, [(0, Sample.init "a")]), (50, [(0, Sample.init "b")]),
        (90, [(0, Sample.init "c")])] = true ∧
    (printDynamic false ({ min := some 40, max := some 80 } : Layer)
        [(30, [(0, Sample.init "a")]), (50, [(0, Sample.init "b")]),
         (90, [(0, Sample.init "c")])] none none 301).1
      = [Line.groupHdr, Line.blank,
         Line.regionHdr, Line.sample "b", Line.pitchKeycenter 50,
         Line.lokey 41, Line.hikey 70, Line.blank] ∧
    (printDynamic false (clearBounds ({ min := some 40, max := some 80 } : Layer))
        [(30, [(0, Sample.init "a")]), (50, [(0, Sample.init "b")]),
         (90, [(0, Sample.init "c")])] none none 301).1
      = [Line.groupHdr, Line.blank,
         Line.regionHdr, Line.sample "a", Line.pitchKeycenter 30,
         Line.hikey 40, Line.blank,
         Line.regionHdr, Line.sample "b", Line.pitchKeycenter 50,
         Line.lokey 41, Line.hikey 70, Line.blank,
         Line.regionHdr, Line.sample "c", Line.pitchKeycenter 90,
         Line.lokey 71, Line.blank] := by
  refine ⟨by decide, ?_, ?_⟩
  · rw [(claim4_amended false { min := some 40, max := some 80 }
      [(30, [(0, Sample.init "a")]), (50, [(0, Sample.init "b")]),
       (90, [(0, Sample.init "c")])] none none 301 (by decide)).1]
    decide
  · rw [(claim4_amended false { min := some 40, max := some 80 }
      [(30, [(0, Sample.init "a")]), (50, [(0, Sample.init "b")]),
       (90, [(0, Sample.init "c")])] none none 301 (by decide)).2]
    decide

/-! ## Claim C7: midpoint key ranges tile -/

/-- Counterexample to claim C7: registry keys `0` and `1` (sorted,
distinct, exact-mode off, no bounds).  The midpoint boundary is `0`, so
the first region's high bound `0` is suppressed by the truthiness test
and **no** `hikey` directive is emitted at all, while the second region
emits `lokey=1`: the emitted high bound does not equal the emitted low
bound minus one, and the unbounded first region overlaps the second. -/
theorem claim7_cex :
    (printDynamic false ({} : Layer)
        [(0, [(0, Sample.init "a")]), (1, [(0, Sample.init "b")])] none none 301).1
      = [Line.groupHdr, Line.blank,
         Line.regionHdr, Line.sample "a", Line.pitchKeycenter 0, Line.blank,
         Line.regionHdr, Line.sample "b", Line.pitchKeycenter 1, Line.lokey 1,
         Line.blank] ∧
    ∀ w, Line.hikey w ∉ (printDynamic false ({} : Layer)
        [(0, [(0, Sample.init "a")]), (1, [(0, Sample.init "b")])] none none 301).1 := by
  have h : (printDynamic false ({} : Layer)
      [(0, [(0, Sample.init "a")]), (1, [(0, Sample.init "b")])] none none 301).1
      = [Line.groupHdr, Line.blank,
         Line.regionHdr, Line.sample "a", Line.pitchKeycenter 0, Line.blank,
         Line.regionHdr, Line.sample "b", Line.pitchKeycenter 1, Line.lokey 1,
         Line.blank] := by decide
  refine ⟨h, fun w hw => ?_⟩
  rw [h] at hw
  simp at hw

/-- Adjacent entries of a list pair up in its zip with its own tail. -/
theorem zipTail_get (ks : List ℤ) :
    ∀ (i : ℕ) (a b : ℤ), ks[i]? = some a → ks[i + 1]? = some b →
      (ks.zip ks.tail)[i]? = some (a, b) := by
  induction ks with
  | nil => intro i a b ha _; simp at ha
  | cons x rest ih =>
    intro i a b ha hb
    cases rest with
    | nil =>
      cases i with
      | zero => simp at hb
      | succ i' => simp at ha
    | cons y rest' =>
      cases i with
      | zero => simp_all [List.zip_cons_cons]
      | succ i' =>
        have := ih i' a b (by simpa using ha) (by simpa using hb)
        simpa [List.zip_cons_cons, List.tail_cons] using this

/-- The boundary list holds the floored midpoint of each adjacent key
pair. -/
theorem borders_get (ks : List ℤ) (i : ℕ) (a b : ℤ) (ha : ks[i]? = some a)
    (hb : ks[i + 1]? = some b) :
    (borders ks)[i]? = some ((a + b) / 2) := by
  have hz := zipTail_get ks i a b ha hb
  simp only [borders, List.getElem?_map, hz, Option.map_some']

/-- Adjacent entries of a strictly increasing list are ordered. -/
theorem chain'_lt_get (ks : List ℤ) (h : List.Chain' (· < ·) ks) :
    ∀ (i : ℕ) (a b : ℤ), ks[i]? = some a → ks[i + 1]? = some b → a < b := by
  induction ks with
  | nil => intro i a b ha _; simp at ha
  | cons x rest ih =>
    intro i a b ha hb
    cases rest with
    | nil =>
      cases i with
      | zero => simp at hb
      | succ i' => simp at ha
    | cons y rest' =>
      obtain ⟨hxy, h'⟩ := List.chain'_cons.mp h
      cases i with
      | zero =>
        simp only [List.getElem?_cons_zero, List.getElem?_cons_succ] at ha hb
        obtain rfl : x = a := by simp_all
        obtain rfl : y = b := by simp_all
        exact hxy
      | succ i' => exact ih h' i' a b (by simpa using ha) (by simpa using hb)

/-- Claim C7 (amended): for sorted distinct keys, the **computed**
boundary between positions `i` and `i+1` is `⌊(kᵢ + kᵢ₊₁)/2⌋`, the
computed high bound at `i` is exactly the computed low bound at `i+1`
minus one, and the boundary lies in `[kᵢ, kᵢ₊₁)`: the computed ranges
tile with no gaps or overlaps.  These bounds become `hikey`/`lokey`
directives only when non-zero and when the region does not collapse to
a single `key=` directive (see C10). -/
theorem claim7_amended (ks : List ℤ) (i : ℕ) (a b : ℤ)
    (hchain : List.Chain' (fun x y => x < y) ks)
    (ha : ks[i]? = some a) (hb : ks[i + 1]? = some b) :
    keyHigh (borders ks) ks.length i = some ((a + b) / 2) ∧
    keyLow (borders ks) (i + 1) = some ((a + b) / 2 + 1) ∧
    a ≤ (a + b) / 2 ∧ (a + b) / 2 < b := by
  have hlen : i + 1 < ks.length := by
    by_contra hc
    push_neg at hc
    rw [List.getElem?_eq_none hc] at hb
    simp at hb
  have hne : i ≠ ks.length - 1 := by omega
  have hbg := borders_get ks i a b ha hb
  have hab : a < b := chain'_lt_get ks hchain i a b ha hb
  refine ⟨?_, ?_, by omega, by omega⟩
  · simp [keyHigh, hne, hbg]
  · simp [keyLow, hbg]

/-- Witness for the amended C7 on the keys `36 < 50 < 60` at `i = 0`:
boundary `43`, high bound `43`, low bound `44`. -/
theorem claim7_amended_w :
    List.Chain' (fun x y => x < y) [(36 : ℤ), 50, 60] ∧
    [(36 : ℤ), 50, 60][0]? = some 36 ∧ [(36 : ℤ), 50, 60][1]? = some 50 ∧
    (keyHigh (borders [(36 : ℤ), 50, 60]) 3 0 = some 43 ∧
     keyLow (borders [(36 : ℤ), 50, 60]) 1 = some 44 ∧
     (36 : ℤ) ≤ 43 ∧ (43 : ℤ) < 50) :=
  ⟨by norm_num [List.chain'_cons], by decide, by decide,
   claim7_amended [36, 50, 60] 0 36 50 (by norm_num [List.chain'_cons])
     (by decide) (by decide)⟩

/-! ## Claim C9: pan is always zero -/

/-- All samples of a registry carry pan `0`. -/
def pansZero (dm : DynMap) : Bool :=
  dm.all fun d => d.2.all fun k => k.2.all fun r => r.2.pan == 0

/-- Inserting a pan-`0` sample preserves the pan invariant. -/
theorem pansZero_dynInsert (dm : DynMap) (d k : ℤ) (r : ℕ) (s : Sample)
    (h : pansZero dm = true) (hs : s.pan = 0) :
    pansZero (dynInsert dm d k r s) = true := by
  have h' : dm.all (fun dd => dd.2.all fun kk => kk.2.all fun rr =>
      rr.2.pan == 0) = true := h
  have hkm : ((alookup dm d).getD []).all
      (fun kk => kk.2.all fun rr => rr.2.pan == 0) = true := by
    cases halk : alookup dm d with
    | none => simp
    | some km =>
      exact alookup_all (fun km => km.all fun kk => kk.2.all fun rr =>
        rr.2.pan == 0) dm h' d km halk
  have hrm : ((alookup ((alookup dm d).getD []) k).getD []).all
      (fun rr => rr.2.pan == 0) = true := by
    cases halk : alookup ((alookup dm d).getD []) k with
    | none => simp
    | some rm =>
      exact alookup_all (fun rm => rm.all fun rr => rr.2.pan == 0)
        ((alookup dm d).getD []) hkm k rm halk
  show (updA dm d (updA ((alookup dm d).getD []) k
      (updA ((alookup ((alookup dm d).getD []) k).getD []) r s))).all
      (fun dd => dd.2.all fun kk => kk.2.all fun rr => rr.2.pan == 0) = true
  exact all_updA (fun (km : KeyMap) => km.all fun kk => kk.2.all fun rr =>
      rr.2.pan == 0) dm d _ h'
    (all_updA (fun (rm : RRMap) => rm.all fun rr => rr.2.pan == 0) _ k _ hkm
      (all_updA (fun (smp : Sample) => smp.pan == 0) _ r _ hrm (by simp [hs])))

/-- `parseNote` only ever inserts freshly constructed samples, whose pan
is `0`. -/
theorem pansZero_parseNote (g : GlobalLayer) (L : Layer) (fn : String)
    (ts : List (List Char)) (h : pansZero L.dynamics = true) :
    pansZero (parseNote g L fn ts).dynamics = true := by
  simp only [parseNote]
  split
  · split
    · simpa using pansZero_dynInsert _ _ _ _ _ h rfl
    · split
      · simpa using pansZero_dynInsert _ _ _ _ _ h rfl
      · exact h
  · split
    · exact h
    · simpa using pansZero_dynInsert _ _ _ _ _ h rfl

/-- The whole directory scan preserves the pan invariant. -/
theorem pansZero_runScan (g : GlobalLayer)
    (files : List (String × List (List Char))) :
    ∀ L : Layer, pansZero L.dynamics = true →
      pansZero (runScan g L files).dynamics = true := by
  induction files with
  | nil => intro L h; exact h
  | cons hd tl ih =>
    intro L h
    exact ih _ (pansZero_parseNote g L hd.1 hd.2 h)

/-- Amplitude analysis writes only offset and volume (the pan assignment
in the source is commented out), so it preserves the pan invariant. -/
theorem pansZero_analyzeRegistry (res : String → Option (ℕ × ℚ)) (dm : DynMap)
    (h : pansZero dm = true) : pansZero (analyzeRegistry res dm) = true := by
  simp only [pansZero, analyzeRegistry, List.all_map, List.all_eq_true,
    Function.comp] at h ⊢
  intro d hd k hk r hr
  have hbase := h d hd k hk r hr
  cases hres : res r.2.name with
  | none => simpa [hres] using hbase
  | some v => simpa [hres, analyzeSample] using hbase

/-- Per-layer analysis preserves the pan invariant. -/
theorem pansZero_analyzeLayer (res : String → Option (ℕ × ℚ)) (L : Layer)
    (h : pansZero L.dynamics = true) :
    pansZero (analyzeLayer res L).dynamics = true := by
  simp only [analyzeLayer]
  split
  · exact h
  · simpa using pansZero_analyzeRegistry res L.dynamics h

/-- Any sample retrievable from a pan-`0` registry has pan `0`. -/
theorem pan_of_sampleAt (dm : DynMap) (h : pansZero dm = true) (d k : ℤ) (r : ℕ)
    (s : Sample) (hs : sampleAt dm d k r = some s) : s.pan = 0 := by
  cases h1 : alookup dm d with
  | none => simp [sampleAt, h1] at hs
  | some km =>
    cases h2 : alookup km k with
    | none => simp [sampleAt, h1, h2] at hs
    | some rm =>
      cases h3 : alookup rm r with
      | none => simp [sampleAt, h1, h2, h3] at hs
      | some s' =>
        obtain rfl : s' = s := by simpa [sampleAt, h1, h2, h3] using hs
        have h' : dm.all (fun dd => dd.2.all fun kk => kk.2.all fun rr =>
            rr.2.pan == 0) = true := h
        have hkm := alookup_all (fun km => km.all fun kk => kk.2.all fun rr =>
          rr.2.pan == 0) dm h' d km h1
        have hrm := alookup_all (fun rm => rm.all fun rr => rr.2.pan == 0)
          km hkm k rm h2
        have hsp := alookup_all (fun smp => smp.pan == 0) rm hrm r s' h3
        exact eq_of_beq hsp

/-- A member of an emitted truthy directive is the directive itself. -/
theorem mem_optDirective {x : Line} {f : ℤ → Line} {o : Option ℤ}
    (hx : x ∈ optDirective f o) : ∃ v, x = f v := by
  cases o with
  | none => simp [optDirective] at hx
  | some v =>
    by_cases hv : v = 0
    · simp [optDirective, hv] at hx
    · simp [optDirective, hv] at hx
      exact ⟨v, hx⟩

/-- `printNote` emits no pan directive for a pan-`0` sample. -/
theorem printNote_no_pan (L : Layer) (s : Sample) (idx w : ℤ) (lo hi : Option ℤ)
    (j n : ℕ) (hpan : s.pan = 0) :
    Line.pan w ∉ (printNote L s idx lo hi j n).1 := by
  intro hw
  rcases lo with _ | lv <;> rcases hi with _ | hv2 <;>
    simp only [printNote, optDirective, hpan] at hw <;>
    split_ifs at hw <;>
    simp_all

/-- Claim C9: a sample record has pan `0` at construction, the pan
survives unchanged through the scan of arbitrarily many files and
through amplitude analysis (which writes only offset and volume), and
consequently `printNote` never emits a pan directive for a registry
sample. -/
theorem claim9_ok (g : GlobalLayer) (L : Layer)
    (files : List (String × List (List Char))) (res : String → Option (ℕ × ℚ))
    (dyn key : ℤ) (rr : ℕ) (s : Sample) (L' : Layer) (idx w : ℤ)
    (lo hi : Option ℤ) (j n : ℕ) (fn : String)
    (h0 : pansZero L.dynamics = true)
    (hs : sampleAt (analyzeLayer res (runScan g L files)).dynamics dyn key rr
      = some s) :
    (Sample.init fn).pan = 0 ∧ s.pan = 0 ∧
    Line.pan w ∉ (printNote L' s idx lo hi j n).1 := by
  have hreg : pansZero (analyzeLayer res (runScan g L files)).dynamics = true :=
    pansZero_analyzeLayer res _ (pansZero_runScan g files L h0)
  have hpan : s.pan = 0 := pan_of_sampleAt _ hreg dyn key rr s hs
  exact ⟨rfl, hpan, printNote_no_pan L' s idx w lo hi j n hpan⟩

/-- Witness for C9: one scanned file `c3.wav`, analysis writing offset
`7` and volume `2`; the stored sample keeps pan `0` and its region
holds no pan directive. -/
theorem claim9_ok_w :
    pansZero ({} : Layer).dynamics = true ∧
    sampleAt (analyzeLayer (fun _ => some (7, 2))
        (runScan ({} : GlobalLayer) ({} : Layer)
          [("c3.wav", ["c3".toList])])).dynamics 0 36 0
      = some ⟨"c3.wav", 7, 2, 0⟩ ∧
    ((Sample.init "x").pan = 0 ∧ (⟨"c3.wav", 7, 2, 0⟩ : Sample).pan = 0 ∧
     Line.pan 5 ∉ (printNote ({} : Layer) (⟨"c3.wav", 7, 2, 0⟩ : Sample)
       36 none none 0 1).1) :=
  ⟨by decide, by decide,
   claim9_ok {} {} [("c3.wav", ["c3".toList])] (fun _ => some (7, 2)) 0 36 0
     ⟨"c3.wav", 7, 2, 0⟩ {} 36 5 none none 0 1 "x" (by decide) (by decide)⟩

/-! ## Claim C6: the velocity boundary function -/

/-- Counterexample to claim C6: at exponent `-1` (any negative exponent
is accepted by the configuration) the boundary function is neither
monotone nor bounded by `128`: with three dynamic levels,
`boundary(1) = ⌊3 * 128⌋ = 384` and `boundary(2) = ⌊(3/2) * 128⌋ = 192`,
so level index `1 ≤ 2` maps to `384 > 192`, and `384 ∉ [0, 128)`. -/
theorem claim6_cex :
    velBorder (-1) 1 3 = 384 ∧ velBorder (-1) 2 3 = 192 ∧
    ¬(velBorder (-1) 1 3 ≤ velBorder (-1) 2 3) ∧
    ¬(velBorder (-1) 1 3 < 128) := by
  have hcast : ((-1 : ℚ) : ℝ) = -1 := by norm_num
  have h1 : velBorder (-1) 1 3 = 384 := by
    unfold velBorder
    rw [hcast, Real.rpow_neg_one]
    rw [show (((1 : ℕ) : ℝ) / ((3 : ℕ) : ℝ))⁻¹ * 128 = ((384 : ℤ) : ℝ) by
      push_cast; norm_num]
    exact Int.floor_intCast 384
  have h2 : velBorder (-1) 2 3 = 192 := by
    unfold velBorder
    rw [hcast, Real.rpow_neg_one]
    rw [show (((2 : ℕ) : ℝ) / ((3 : ℕ) : ℝ))⁻¹ * 128 = ((192 : ℤ) : ℝ) by
      push_cast; norm_num]
    exact Int.floor_intCast 192
  refine ⟨h1, h2, ?_, ?_⟩
  · rw [h1, h2]; omega
  · rw [h1]; omega

/-- Claim C6 (amended): for every **positive** exponent and dynamic
count, the boundary function `i ↦ ⌊(i/ln)^e * 128⌋` is monotone
non-decreasing on level indices up to `ln`, and on every level index
`i < ln` it returns a value in `[0, 128)`. -/
theorem claim6_amended (e : ℚ) (he : 0 < e) (ln i j : ℕ) (hln : 0 < ln)
    (hi : i < ln) (hij : i ≤ j) (_hj : j ≤ ln) :
    velBorder e i ln ≤ velBorder e j ln ∧
    0 ≤ velBorder e i ln ∧ velBorder e i ln < 128 := by
  have hln' : (0 : ℝ) < (ln : ℝ) := by exact_mod_cast hln
  have he' : (0 : ℝ) < ((e : ℚ) : ℝ) := by exact_mod_cast he
  have hx0 : (0 : ℝ) ≤ (i : ℝ) / (ln : ℝ) :=
    div_nonneg (Nat.cast_nonneg i) (le_of_lt hln')
  refine ⟨?_, ?_, ?_⟩
  · apply Int.floor_mono
    have hxy : (i : ℝ) / (ln : ℝ) ≤ (j : ℝ) / (ln : ℝ) := by
      gcongr
    exact mul_le_mul_of_nonneg_right
      (Real.rpow_le_rpow hx0 hxy (le_of_lt he')) (by norm_num)
  · exact Int.le_floor.mpr (by push_cast; positivity)
  · unfold velBorder
    rw [Int.floor_lt]
    have hx1 : (i : ℝ) / (ln : ℝ) < 1 :=
      (div_lt_one hln').mpr (by exact_mod_cast hi)
    have hr1 : ((i : ℝ) / (ln : ℝ)) ^ ((e : ℚ) : ℝ) < 1 :=
      Real.rpow_lt_one hx0 hx1 he'
    have := mul_lt_mul_of_pos_right hr1 (by norm_num : (0 : ℝ) < 128)
    push_cast
    linarith

/-- Witness for the amended C6 at exponent `1`, two levels, indices
`1 ≤ 2`. -/
theorem claim6_amended_w :
    (0 : ℚ) < 1 ∧ 0 < 2 ∧ 1 < 2 ∧ 1 ≤ 2 ∧ 2 ≤ 2 ∧
    (velBorder 1 1 2 ≤ velBorder 1 2 2 ∧
     0 ≤ velBorder 1 1 2 ∧ velBorder 1 1 2 < 128) :=
  ⟨by norm_num, by norm_num, by norm_num, by norm_num, by norm_num,
   claim6_amended 1 (by norm_num) 2 1 2 (by norm_num) (by norm_num)
     (by norm_num) (by norm_num)⟩

end SfzGen

